import Mathlib

/-!
Shallow embedding of `createVerkadaDeviceReport.py` (Verkada camera site
report generator) and verification of its specification claims.

The program is a linear pipeline: paginated fetch → group by site →
per-site status tally and fleet-wide growth series → PDF report assembly.
Each Python function is embedded as a Lean definition; Python `dict`s with
insertion order become association lists, exceptions become `Except`, and
the potentially diverging fetch loop takes explicit fuel.
-/

namespace Verkada

/-- A device record as returned by the API (`data['cameras']` entries).
`date_added` is an epoch timestamp in whole seconds. -/
structure Camera where
  name : String
  model : String
  serial : String
  site : String
  status : String
  date_added : Int
deriving Repr, DecidableEq

/-- `PAGE_LIMIT = 200` from the source. -/
def PAGE_LIMIT : Nat := 200

/-!  ## Fetcher (`fetch_camera_data`, source lines 17-31)

The while-loop requests page tokens 1, 2, 3, … in order, extends the
accumulated list with each page's records, and breaks as soon as a page
has fewer than `PAGE_LIMIT` records.  The API is modelled as a function
from page token to the page's record list; the loop takes fuel because
the Python loop diverges if every page is full forever.  The result pairs
the list of page tokens actually requested with the concatenated records. -/

def fetchGo (api : Nat → List Camera) : Nat → Nat → Option (List Nat × List Camera)
  | 0, _ => none
  | fuel + 1, page =>
    let pg := api page
    if pg.length < PAGE_LIMIT then
      some ([page], pg)
    else
      match fetchGo api fuel (page + 1) with
      | none => none
      | some (toks, recs) => some (page :: toks, pg ++ recs)

/-- `fetch_camera_data` starts at page token 1. -/
def fetch_camera_data (api : Nat → List Camera) (fuel : Nat) :
    Option (List Nat × List Camera) :=
  fetchGo api fuel 1

theorem fetchGo_eq (api : Nat → List Camera) (m : Nat) :
    ∀ p fuel : Nat, m < fuel →
    (∀ i, p ≤ i → i < p + m → ¬ ((api i).length < PAGE_LIMIT)) →
    (api (p + m)).length < PAGE_LIMIT →
    fetchGo api fuel p =
      some (List.range' p (m + 1), ((List.range' p (m + 1)).map api).flatten) := by
  induction m with
  | zero =>
    intro p fuel hfuel _ hshort
    match fuel, hfuel with
    | f + 1, _ =>
      simp only [Nat.add_zero] at hshort
      simp [fetchGo, hshort, List.range']
  | succ m ih =>
    intro p fuel hfuel hfull hshort
    match fuel, hfuel with
    | f + 1, hfuel =>
      have hpfull : ¬ ((api p).length < PAGE_LIMIT) :=
        hfull p le_rfl (by omega)
      have hrec := ih (p + 1) f (by omega)
        (fun i h1 h2 => hfull i (by omega) (by omega))
        (by
          have : p + 1 + m = p + (m + 1) := by omega
          rw [this]; exact hshort)
      simp only [fetchGo, hpfull, if_false, hrec]
      have hr : List.range' p (m + 1 + 1) = p :: List.range' (p + 1) (m + 1) := by
        have := List.range'_succ p (m + 1) 1
        simpa using this
      simp [hr]

/-- Claim C1: `fetch_camera_data` requests pages sequentially with integer
page tokens starting at 1 and incrementing by 1; it stops immediately after
the first page containing fewer than 200 records (page `k`, all earlier
pages being full), issuing exactly the tokens 1 … k; and it returns the
concatenation of all fetched pages in request order. -/
theorem fetch_camera_data_paginates (api : Nat → List Camera) (k fuel : Nat)
    (hk : 1 ≤ k) (hfuel : k ≤ fuel)
    (hfull : ∀ i, 1 ≤ i → i < k → ¬ ((api i).length < PAGE_LIMIT))
    (hshort : (api k).length < PAGE_LIMIT) :
    fetch_camera_data api fuel =
      some (List.range' 1 k, ((List.range' 1 k).map api).flatten) := by
  have h := fetchGo_eq api (k - 1) 1 fuel (by omega)
    (fun i h1 h2 => hfull i h1 (by omega))
    (by
      have : 1 + (k - 1) = k := by omega
      rw [this]; exact hshort)
  have hk1 : k - 1 + 1 = k := by omega
  rw [hk1] at h
  exact h

/-- A dummy camera record used for concrete test inputs. -/
def camA : Camera :=
  { name := "Cam A", model := "CD42", serial := "SN-A", site := "HQ",
    status := "Live", date_added := 1700000000 }

/-- A mocked API: page 1 holds exactly 200 records, page 2 holds 50. -/
def apiTwoPages : Nat → List Camera := fun n =>
  if n = 1 then List.replicate 200 camA
  else if n = 2 then List.replicate 50 camA
  else []

/-- Witness for C1: on a first page of exactly 200 records followed by a
page of 50, exactly two requests are issued, with page tokens 1 then 2,
and the result is the concatenation of the two pages. -/
theorem fetch_camera_data_paginates_witness :
    fetch_camera_data apiTwoPages 2 =
      some ([1, 2], List.replicate 200 camA ++ List.replicate 50 camA) := by
  have h1 : apiTwoPages 1 = List.replicate 200 camA := rfl
  have h2 : apiTwoPages 2 = List.replicate 50 camA := rfl
  have h := fetch_camera_data_paginates apiTwoPages 2 2 (by decide) (by decide)
    (by
      intro i hi1 hi2
      have hi : i = 1 := by omega
      subst hi
      rw [h1, List.length_replicate]
      decide)
    (by rw [h2, List.length_replicate]; decide)
  rw [show List.range' 1 2 = [1, 2] from rfl] at h
  rw [h]
  simp only [List.map_cons, List.map_nil, List.flatten_cons, List.flatten_nil,
    h1, h2, List.append_nil]

/-!  ## Aggregator: grouping (`group_cameras_by_site`, source lines 33-40)

Python's insertion-ordered `dict` becomes an association list: a new site
label is appended at the end on first sight, and a camera is appended at
the end of its site's existing list otherwise. -/

def addToSite (sites : List (String × List Camera)) (site : String) (c : Camera) :
    List (String × List Camera) :=
  match sites with
  | [] => [(site, [c])]
  | (s, cs) :: rest =>
    if s = site then (s, cs ++ [c]) :: rest
    else (s, cs) :: addToSite rest site c

/-- `group_cameras_by_site`: one pass over the camera list, bucketing by
the `site` field. -/
def group_cameras_by_site (cameras : List Camera) : List (String × List Camera) :=
  cameras.foldl (fun sites c => addToSite sites c.site c) []

/-- `sites[s]` lookup on the association list, returning `[]` for a
missing key. -/
def findGroup : List (String × List Camera) → String → List Camera
  | [], _ => []
  | (s, cs) :: rest, t => if s = t then cs else findGroup rest t

theorem findGroup_addToSite (sites : List (String × List Camera))
    (t : String) (c : Camera) (s : String) :
    findGroup (addToSite sites t c) s =
      if t = s then findGroup sites s ++ [c] else findGroup sites s := by
  induction sites with
  | nil =>
    by_cases h : t = s <;> simp [addToSite, findGroup, h]
  | cons hd tl ih =>
    obtain ⟨s0, cs0⟩ := hd
    by_cases h0 : s0 = t
    · subst h0
      by_cases h : s0 = s
      · subst h
        simp [addToSite, findGroup]
      · simp [addToSite, findGroup, h]
    · by_cases h : s0 = s
      · subst h
        have hts : ¬ t = s0 := fun hh => h0 hh.symm
        simp [addToSite, findGroup, h0, hts]
      · simp [addToSite, findGroup, h0, h, ih]

theorem findGroup_foldl (cs : List Camera) :
    ∀ (acc : List (String × List Camera)) (s : String),
    findGroup (cs.foldl (fun sites c => addToSite sites c.site c) acc) s =
      findGroup acc s ++ cs.filter (fun c => c.site == s) := by
  induction cs with
  | nil => intro acc s; simp
  | cons c rest ih =>
    intro acc s
    simp only [List.foldl_cons, ih (addToSite acc c.site c) s,
      findGroup_addToSite, List.filter_cons]
    by_cases h : c.site = s
    · simp [h, List.append_assoc]
    · have hb : (c.site == s) = false := by
        simp [h]
      simp [h, hb]

/-- The site labels (dict keys) of a grouping, in insertion order. -/
def siteKeys (sites : List (String × List Camera)) : List String :=
  sites.map Prod.fst

theorem siteKeys_addToSite (sites : List (String × List Camera))
    (t : String) (c : Camera) :
    siteKeys (addToSite sites t c) =
      if t ∈ siteKeys sites then siteKeys sites else siteKeys sites ++ [t] := by
  induction sites with
  | nil => simp [addToSite, siteKeys]
  | cons hd tl ih =>
    obtain ⟨s0, cs0⟩ := hd
    by_cases h0 : s0 = t
    · subst h0
      simp [addToSite, siteKeys]
    · have hts : ¬ t = s0 := fun hh => h0 hh.symm
      simp only [addToSite, h0, if_false, siteKeys, List.map_cons] at ih ⊢
      rw [ih]
      by_cases hmem : t ∈ tl.map Prod.fst
      · simp [hmem, hts]
      · simp [hmem, hts]

theorem nodup_siteKeys_addToSite (sites : List (String × List Camera))
    (t : String) (c : Camera) (h : (siteKeys sites).Nodup) :
    (siteKeys (addToSite sites t c)).Nodup := by
  rw [siteKeys_addToSite]
  by_cases hmem : t ∈ siteKeys sites
  · simpa [hmem] using h
  · simp only [hmem, if_false]
    rw [List.nodup_append]
    refine ⟨h, List.nodup_singleton t, ?_⟩
    intro a ha hat
    have hae : a = t := by simpa using hat
    subst hae
    exact hmem ha

theorem nodup_siteKeys_foldl (cs : List Camera) :
    ∀ acc : List (String × List Camera), (siteKeys acc).Nodup →
    (siteKeys (cs.foldl (fun sites c => addToSite sites c.site c) acc)).Nodup := by
  induction cs with
  | nil => intro acc h; simpa using h
  | cons c rest ih =>
    intro acc h
    exact ih (addToSite acc c.site c) (nodup_siteKeys_addToSite acc c.site c h)

/-- Total number of cameras across all groups. -/
def totalSize (sites : List (String × List Camera)) : Nat :=
  (sites.map (fun g => g.2.length)).sum

theorem totalSize_addToSite (sites : List (String × List Camera))
    (t : String) (c : Camera) :
    totalSize (addToSite sites t c) = totalSize sites + 1 := by
  induction sites with
  | nil => simp [addToSite, totalSize]
  | cons hd tl ih =>
    obtain ⟨s0, cs0⟩ := hd
    by_cases h0 : s0 = t
    · subst h0
      simp [addToSite, totalSize]
      omega
    · simp [addToSite, totalSize, h0] at ih ⊢
      omega

theorem totalSize_foldl (cs : List Camera) :
    ∀ acc : List (String × List Camera),
    totalSize (cs.foldl (fun sites c => addToSite sites c.site c) acc) =
      totalSize acc + cs.length := by
  induction cs with
  | nil => intro acc; simp
  | cons c rest ih =>
    intro acc
    simp only [List.foldl_cons, ih (addToSite acc c.site c), totalSize_addToSite,
      List.length_cons]
    omega

theorem findGroup_of_mem (sites : List (String × List Camera))
    (h : (siteKeys sites).Nodup) {s : String} {l : List Camera}
    (hmem : (s, l) ∈ sites) : findGroup sites s = l := by
  induction sites with
  | nil => cases hmem
  | cons hd tl ih =>
    obtain ⟨s0, cs0⟩ := hd
    have h' := List.nodup_cons.mp (show (s0 :: siteKeys tl).Nodup from h)
    rcases List.mem_cons.mp hmem with heq | htl
    · injection heq with h1 h2
      subst h1; subst h2
      simp [findGroup]
    · have hkey : s ∈ siteKeys tl := List.mem_map_of_mem Prod.fst htl
      have h0 : ¬ s0 = s := by
        intro hh
        apply h'.1
        rw [hh]
        exact hkey
      simp [findGroup, h0, ih h'.2 htl]

theorem mem_of_findGroup_ne_nil (sites : List (String × List Camera)) (s : String)
    (h : findGroup sites s ≠ []) : (s, findGroup sites s) ∈ sites := by
  induction sites with
  | nil => simp [findGroup] at h
  | cons hd tl ih =>
    obtain ⟨s0, cs0⟩ := hd
    by_cases h0 : s0 = s
    · subst h0
      simp [findGroup]
    · simp only [findGroup, h0, if_false] at h ⊢
      exact List.mem_cons_of_mem _ (ih h)

/-- Claim C4: `group_cameras_by_site` partitions the device list — the
per-site group sizes sum to the total device count, site keys are unique,
each site's group is exactly the sub-list of devices bearing that site
label in first-seen input order, and every device lies in exactly one
group. -/
theorem group_cameras_by_site_partitions (cs : List Camera) :
    totalSize (group_cameras_by_site cs) = cs.length
    ∧ (siteKeys (group_cameras_by_site cs)).Nodup
    ∧ (∀ s, findGroup (group_cameras_by_site cs) s =
        cs.filter (fun c => c.site == s))
    ∧ (∀ c ∈ cs, ∃! g, g ∈ group_cameras_by_site cs ∧ c ∈ g.2) := by
  have hfind : ∀ s, findGroup (group_cameras_by_site cs) s =
      cs.filter (fun c => c.site == s) := by
    intro s
    simpa [findGroup] using findGroup_foldl cs [] s
  have hnd : (siteKeys (group_cameras_by_site cs)).Nodup := by
    apply nodup_siteKeys_foldl
    simp [siteKeys]
  refine ⟨?_, hnd, hfind, ?_⟩
  · simpa [totalSize] using totalSize_foldl cs []
  · intro c hc
    have hcfilter : c ∈ cs.filter (fun c2 => c2.site == c.site) := by
      simp [List.mem_filter, hc]
    have hne : findGroup (group_cameras_by_site cs) c.site ≠ [] := by
      rw [hfind c.site]
      intro hnil
      rw [hnil] at hcfilter
      cases hcfilter
    refine ⟨(c.site, findGroup (group_cameras_by_site cs) c.site),
      ⟨mem_of_findGroup_ne_nil _ _ hne, by rw [hfind c.site]; exact hcfilter⟩, ?_⟩
    rintro ⟨s', l'⟩ ⟨hmem', hc'⟩
    have hl' : findGroup (group_cameras_by_site cs) s' = l' :=
      findGroup_of_mem _ hnd hmem'
    have hsite : c.site = s' := by
      have := hl' ▸ hfind s' ▸ (hfind s' ▸ hl'.symm ▸ hc')
      have hcmem : c ∈ cs.filter (fun c2 => c2.site == s') := by
        rw [← hfind s', hl']
        exact hc'
      have := (List.mem_filter.mp hcmem).2
      simpa using this
    subst hsite
    simp [← hl']

/-- Second dummy camera, sited differently from `camA`. -/
def camB : Camera :=
  { name := "Cam B", model := "CD52", serial := "SN-B", site := "Annex",
    status := "Offline", date_added := 1710000000 }

/-- Witness for C4: on the concrete list `[camA, camB]` the grouping
places `camA` in exactly one group. -/
theorem group_cameras_by_site_partitions_witness :
    ∃! g, g ∈ group_cameras_by_site [camA, camB] ∧ camA ∈ g.2 :=
  (group_cameras_by_site_partitions [camA, camB]).2.2.2 camA (by simp)

/-!  ## Aggregator: status tally (inside
`create_camera_status_by_site_bar_graph`, source lines 42-48)

`status_counts = {"Live": 0, "Offline": 0}` followed by
`status_counts[camera['status']] += 1`: a status outside the two keys
raises `KeyError`.  The loop is embedded as a fold over `Except`. -/

def tallyStep (acc : Except String (Nat × Nat)) (c : Camera) :
    Except String (Nat × Nat) :=
  match acc with
  | .error e => .error e
  | .ok (live, offline) =>
    if c.status = "Live" then .ok (live + 1, offline)
    else if c.status = "Offline" then .ok (live, offline + 1)
    else .error ("KeyError: " ++ c.status)

/-- Per-site status tally: `(Live count, Offline count)` or a `KeyError`. -/
def status_tally (cameras : List Camera) : Except String (Nat × Nat) :=
  cameras.foldl tallyStep (.ok (0, 0))

theorem foldl_tallyStep_error (cs : List Camera) (e : String) :
    cs.foldl tallyStep (.error e) = .error e := by
  induction cs with
  | nil => rfl
  | cons c rest ih => simpa [tallyStep] using ih

theorem foldl_tallyStep_known (cs : List Camera)
    (hknown : ∀ c ∈ cs, c.status = "Live" ∨ c.status = "Offline") :
    ∀ live offline : Nat,
    cs.foldl tallyStep (.ok (live, offline)) =
      .ok (live + cs.countP (fun c => c.status == "Live"),
           offline + cs.countP (fun c => c.status == "Offline")) := by
  induction cs with
  | nil => intro live offline; simp
  | cons c rest ih =>
    intro live offline
    have hc := hknown c (List.mem_cons_self c rest)
    have ihr := ih (fun c2 h2 => hknown c2 (List.mem_cons_of_mem c h2))
    rcases hc with hl | ho
    · have hb1 : (c.status == "Live") = true := by rw [hl]; rfl
      have hb2 : (c.status == "Offline") = false := by rw [hl]; rfl
      have hstep : tallyStep (Except.ok (live, offline)) c =
          Except.ok (live + 1, offline) := by
        simp [tallyStep, hl]
      rw [List.foldl_cons, hstep, ihr (live + 1) offline,
        List.countP_cons, List.countP_cons, hb1, hb2]
      simp only [if_pos, if_neg, Except.ok.injEq, Prod.mk.injEq, if_true]
      norm_num
      omega
    · have hb1 : (c.status == "Live") = false := by rw [ho]; rfl
      have hb2 : (c.status == "Offline") = true := by rw [ho]; rfl
      have hnl : ¬ c.status = "Live" := by rw [ho]; decide
      have hstep : tallyStep (Except.ok (live, offline)) c =
          Except.ok (live, offline + 1) := by
        simp [tallyStep, ho, hnl]
      rw [List.foldl_cons, hstep, ihr live (offline + 1),
        List.countP_cons, List.countP_cons, hb1, hb2]
      norm_num
      omega

theorem foldl_tallyStep_bad (cs : List Camera) :
    ∀ acc : Except String (Nat × Nat),
    (∃ c ∈ cs, ¬ (c.status = "Live" ∨ c.status = "Offline")) →
    ∃ e, cs.foldl tallyStep acc = .error e := by
  induction cs with
  | nil => rintro acc ⟨c, hc, _⟩; cases hc
  | cons c rest ih =>
    rintro acc ⟨c0, hc0, hbad⟩
    rcases List.mem_cons.mp hc0 with heq | htl
    · subst heq
      push_neg at hbad
      match acc with
      | .error e =>
        exact ⟨e, by simpa [tallyStep] using foldl_tallyStep_error rest e⟩
      | .ok (live, offline) =>
        refine ⟨"KeyError: " ++ c0.status, ?_⟩
        simp only [List.foldl_cons, tallyStep, hbad.1, hbad.2, if_false]
        exact foldl_tallyStep_error rest _
    · exact ih (tallyStep acc c) ⟨c0, htl, hbad⟩

theorem count_known_eq_length (cs : List Camera)
    (hknown : ∀ c ∈ cs, c.status = "Live" ∨ c.status = "Offline") :
    cs.countP (fun c => c.status == "Live") +
      cs.countP (fun c => c.status == "Offline") = cs.length := by
  induction cs with
  | nil => simp
  | cons c rest ih =>
    have hc := hknown c (List.mem_cons_self c rest)
    have ihr := ih (fun c2 h2 => hknown c2 (List.mem_cons_of_mem c h2))
    rcases hc with hl | ho
    · have hb1 : (c.status == "Live") = true := by rw [hl]; rfl
      have hb2 : (c.status == "Offline") = false := by rw [hl]; rfl
      rw [List.countP_cons, List.countP_cons, hb1, hb2, List.length_cons]
      norm_num
      omega
    · have hb1 : (c.status == "Live") = false := by rw [ho]; rfl
      have hb2 : (c.status == "Offline") = true := by rw [ho]; rfl
      rw [List.countP_cons, List.countP_cons, hb1, hb2, List.length_cons]
      norm_num
      omega

/-- Claim C5: the per-site status tally succeeds with the Live count plus
the Offline count equal to the site's device count — each count being the
number of that site's devices bearing that status — exactly when every
device's status is in {Live, Offline}; any other status value yields a
`KeyError` runtime fault instead. -/
theorem status_tally_known_statuses (cs : List Camera) :
    ((∀ c ∈ cs, c.status = "Live" ∨ c.status = "Offline") →
      status_tally cs = .ok (cs.countP (fun c => c.status == "Live"),
        cs.countP (fun c => c.status == "Offline"))
      ∧ cs.countP (fun c => c.status == "Live") +
          cs.countP (fun c => c.status == "Offline") = cs.length)
    ∧ ((∃ c ∈ cs, ¬ (c.status = "Live" ∨ c.status = "Offline")) →
      ∃ e, status_tally cs = .error e)
    ∧ (∀ live offline, status_tally cs = .ok (live, offline) →
      ∀ c ∈ cs, c.status = "Live" ∨ c.status = "Offline") := by
  refine ⟨?_, ?_, ?_⟩
  · intro hknown
    constructor
    · simpa [status_tally] using foldl_tallyStep_known cs hknown 0 0
    · exact count_known_eq_length cs hknown
  · intro hbad
    exact foldl_tallyStep_bad cs (.ok (0, 0)) hbad
  · intro live offline hok c hc
    by_contra hbad
    obtain ⟨e, he⟩ := foldl_tallyStep_bad cs (.ok (0, 0)) ⟨c, hc, hbad⟩
    rw [status_tally] at hok
    rw [hok] at he
    cases he

/-- A camera with a status outside {Live, Offline}. -/
def camBadStatus : Camera :=
  { name := "Cam X", model := "CD62", serial := "SN-X", site := "HQ",
    status := "Rebooting", date_added := 1690000000 }

/-- Witness for C5: on `[camA, camB]` (statuses Live and Offline) the
tally succeeds with counts (1, 1) summing to the device count, while
adding a device with status "Rebooting" produces a `KeyError`. -/
theorem status_tally_known_statuses_witness :
    (status_tally [camA, camB] = .ok (1, 1) ∧ (1 : Nat) + 1 = 2)
    ∧ ∃ e, status_tally [camA, camB, camBadStatus] = .error e := by
  constructor
  · have h := (status_tally_known_statuses [camA, camB]).1 (by decide)
    exact ⟨by rw [h.1]; rfl, rfl⟩
  · exact (status_tally_known_statuses [camA, camB, camBadStatus]).2.1
      ⟨camBadStatus, by decide, by decide⟩

/-!  ## Aggregator: growth series (`create_camera_growth_bar_graph`,
source lines 58-73)

`datetime.fromtimestamp(...).strftime('%Y-%m')` is embedded as a civil
calendar conversion from epoch seconds (days-to-civil-date algorithm) and
zero-padded formatting.  The cutoff `int((now - timedelta(days=365)).timestamp())`
is taken as an explicit integer parameter `one_year_ago_epoch`, since it
depends only on the run time.  The `date_counts` dict becomes an
insertion-ordered association list of month strings to counts. -/

/-- Civil date `(year, month, day)` of a count of days since 1970-01-01. -/
def civilFromDays (z : Int) : Int × Nat × Nat :=
  let z' := z + 719468
  let era : Int := Int.fdiv z' 146097
  let doe : Nat := (z' - era * 146097).toNat
  let yoe : Nat := (doe - doe / 1460 + doe / 36524 - doe / 146096) / 365
  let doy : Nat := doe - (365 * yoe + yoe / 4 - yoe / 100)
  let mp : Nat := (5 * doy + 2) / 153
  let d : Nat := doy - (153 * mp + 2) / 5 + 1
  let m : Nat := if mp < 10 then mp + 3 else mp - 9
  (era * 400 + yoe + (if m ≤ 2 then 1 else 0), m, d)

/-- Two-digit zero padding, as in `strftime` month/day fields. -/
def pad2 (n : Nat) : String :=
  if n < 10 then "0" ++ toString n else toString n

/-- `strftime('%Y-%m')` of an epoch timestamp in seconds. -/
def monthOf (t : Int) : String :=
  let c := civilFromDays (Int.fdiv t 86400)
  toString c.1 ++ "-" ++ pad2 c.2.1

/-- `strftime('%Y-%m-%d')` of an epoch timestamp in seconds. -/
def dateOf (t : Int) : String :=
  let c := civilFromDays (Int.fdiv t 86400)
  toString c.1 ++ "-" ++ pad2 c.2.1 ++ "-" ++ pad2 c.2.2

/-- `date_counts[month] += 1` with `if month not in date_counts: ... = 0`:
increment the month's entry, appending a fresh entry at the end for a
first-seen month. -/
def bumpMonth (counts : List (String × Nat)) (m : String) : List (String × Nat) :=
  match counts with
  | [] => [(m, 1)]
  | (k, v) :: rest =>
    if k = m then (k, v + 1) :: rest else (k, v) :: bumpMonth rest m

/-- The `date_counts` dict built by `create_camera_growth_bar_graph`:
devices installed strictly after the cutoff are bucketed by the
year-month of their installation timestamp. -/
def create_camera_growth_series (one_year_ago_epoch : Int)
    (cameras : List Camera) : List (String × Nat) :=
  cameras.foldl
    (fun counts c =>
      if c.date_added > one_year_ago_epoch then bumpMonth counts (monthOf c.date_added)
      else counts)
    []

/-- `date_counts[m]` lookup, `0` for a missing month key. -/
def lookupCount : List (String × Nat) → String → Nat
  | [], _ => 0
  | (k, v) :: rest, m => if k = m then v else lookupCount rest m

theorem lookupCount_bumpMonth (counts : List (String × Nat)) (m s : String) :
    lookupCount (bumpMonth counts m) s =
      if m = s then lookupCount counts s + 1 else lookupCount counts s := by
  induction counts with
  | nil =>
    by_cases h : m = s <;> simp [bumpMonth, lookupCount, h]
  | cons hd tl ih =>
    obtain ⟨k, v⟩ := hd
    by_cases hk : k = m
    · subst hk
      by_cases h : k = s
      · subst h
        simp [bumpMonth, lookupCount]
      · simp [bumpMonth, lookupCount, h]
    · by_cases h : k = s
      · subst h
        have hms : ¬ m = k := fun hh => hk hh.symm
        simp [bumpMonth, lookupCount, hk, hms]
      · simp [bumpMonth, lookupCount, hk, h, ih]

theorem lookupCount_growth_foldl (one_year_ago_epoch : Int) (cs : List Camera) :
    ∀ (acc : List (String × Nat)) (m : String),
    lookupCount
      (cs.foldl
        (fun counts c =>
          if c.date_added > one_year_ago_epoch then
            bumpMonth counts (monthOf c.date_added)
          else counts) acc) m =
      lookupCount acc m +
        cs.countP (fun c =>
          decide (one_year_ago_epoch < c.date_added) &&
            (monthOf c.date_added == m)) := by
  induction cs with
  | nil => intro acc m; simp
  | cons c rest ih =>
    intro acc m
    rw [List.foldl_cons, List.countP_cons]
    by_cases hin : c.date_added > one_year_ago_epoch
    · rw [if_pos hin, ih (bumpMonth acc (monthOf c.date_added)) m,
        lookupCount_bumpMonth]
      by_cases hm : monthOf c.date_added = m
      · have hb : (decide (one_year_ago_epoch < c.date_added) &&
            (monthOf c.date_added == m)) = true := by
          simp [hin, hm]
        rw [if_pos hm, hb]
        rw [show (if true = true then (1:Nat) else 0) = 1 from rfl]
        omega
      · have hb : (decide (one_year_ago_epoch < c.date_added) &&
            (monthOf c.date_added == m)) = false := by
          simp [hm]
        rw [if_neg hm, hb]
        rw [show (if false = true then (1:Nat) else 0) = 0 from rfl]
        omega
    · have hb : (decide (one_year_ago_epoch < c.date_added) &&
          (monthOf c.date_added == m)) = false := by
        simp [hin]
      rw [if_neg hin, ih acc m, hb]
      rw [show (if false = true then (1:Nat) else 0) = 0 from rfl]
      omega

/-- Total of all month-bucket counts. -/
def sumCounts (counts : List (String × Nat)) : Nat :=
  (counts.map Prod.snd).sum

theorem sumCounts_bumpMonth (counts : List (String × Nat)) (m : String) :
    sumCounts (bumpMonth counts m) = sumCounts counts + 1 := by
  induction counts with
  | nil => simp [bumpMonth, sumCounts]
  | cons hd tl ih =>
    obtain ⟨k, v⟩ := hd
    by_cases hk : k = m
    · subst hk
      simp [bumpMonth, sumCounts]
      omega
    · simp [bumpMonth, sumCounts, hk] at ih ⊢
      omega

theorem sumCounts_growth_foldl (one_year_ago_epoch : Int) (cs : List Camera) :
    ∀ acc : List (String × Nat),
    sumCounts
      (cs.foldl
        (fun counts c =>
          if c.date_added > one_year_ago_epoch then
            bumpMonth counts (monthOf c.date_added)
          else counts) acc) =
      sumCounts acc + cs.countP (fun c => decide (one_year_ago_epoch < c.date_added)) := by
  induction cs with
  | nil => intro acc; simp
  | cons c rest ih =>
    intro acc
    rw [List.foldl_cons, List.countP_cons]
    by_cases hin : c.date_added > one_year_ago_epoch
    · have hb : decide (one_year_ago_epoch < c.date_added) = true := by simp [hin]
      rw [if_pos hin, ih (bumpMonth acc (monthOf c.date_added)),
        sumCounts_bumpMonth, hb]
      rw [show (if true = true then (1:Nat) else 0) = 1 from rfl]
      omega
    · have hb : decide (one_year_ago_epoch < c.date_added) = false := by simp [hin]
      rw [if_neg hin, ih acc, hb]
      rw [show (if false = true then (1:Nat) else 0) = 0 from rfl]
      omega

theorem pos_counts_bumpMonth (counts : List (String × Nat)) (m : String)
    (h : ∀ p ∈ counts, 0 < p.2) : ∀ p ∈ bumpMonth counts m, 0 < p.2 := by
  induction counts with
  | nil =>
    intro p hp
    simp [bumpMonth] at hp
    simp [hp]
  | cons hd tl ih =>
    obtain ⟨k, v⟩ := hd
    intro p hp
    by_cases hk : k = m
    · subst hk
      simp only [bumpMonth, if_pos rfl] at hp
      rcases List.mem_cons.mp hp with heq | htl
      · subst heq; simp
      · exact h p (List.mem_cons_of_mem _ htl)
    · simp only [bumpMonth, hk, if_false] at hp
      rcases List.mem_cons.mp hp with heq | htl
      · subst heq
        exact h (k, v) (List.mem_cons_self _ _)
      · exact ih (fun q hq => h q (List.mem_cons_of_mem _ hq)) p htl

theorem pos_counts_growth_foldl (one_year_ago_epoch : Int) (cs : List Camera) :
    ∀ acc : List (String × Nat), (∀ p ∈ acc, 0 < p.2) →
    ∀ p ∈ cs.foldl
      (fun counts c =>
        if c.date_added > one_year_ago_epoch then
          bumpMonth counts (monthOf c.date_added)
        else counts) acc, 0 < p.2 := by
  induction cs with
  | nil => intro acc h; simpa using h
  | cons c rest ih =>
    intro acc h
    by_cases hin : c.date_added > one_year_ago_epoch
    · simp only [List.foldl_cons, if_pos hin]
      exact ih (bumpMonth acc (monthOf c.date_added))
        (pos_counts_bumpMonth acc (monthOf c.date_added) h)
    · simp only [List.foldl_cons, if_neg hin]
      exact ih acc h

/-- The month keys of the series, in insertion order. -/
def monthKeys (counts : List (String × Nat)) : List String :=
  counts.map Prod.fst

theorem monthKeys_bumpMonth (counts : List (String × Nat)) (m : String) :
    monthKeys (bumpMonth counts m) =
      if m ∈ monthKeys counts then monthKeys counts else monthKeys counts ++ [m] := by
  induction counts with
  | nil => simp [bumpMonth, monthKeys]
  | cons hd tl ih =>
    obtain ⟨k, v⟩ := hd
    by_cases hk : k = m
    · subst hk
      simp [bumpMonth, monthKeys]
    · have hmk : ¬ m = k := fun hh => hk hh.symm
      simp only [bumpMonth, hk, if_false, monthKeys, List.map_cons] at ih ⊢
      rw [ih]
      by_cases hmem : m ∈ tl.map Prod.fst
      · simp [hmem, hmk]
      · simp [hmem, hmk]

theorem nodup_monthKeys_bumpMonth (counts : List (String × Nat)) (m : String)
    (h : (monthKeys counts).Nodup) : (monthKeys (bumpMonth counts m)).Nodup := by
  rw [monthKeys_bumpMonth]
  by_cases hmem : m ∈ monthKeys counts
  · simpa [hmem] using h
  · simp only [hmem, if_false]
    rw [List.nodup_append]
    refine ⟨h, List.nodup_singleton m, ?_⟩
    intro a ha hat
    have hae : a = m := by simpa using hat
    subst hae
    exact hmem ha

theorem nodup_monthKeys_growth_foldl (one_year_ago_epoch : Int) (cs : List Camera) :
    ∀ acc : List (String × Nat), (monthKeys acc).Nodup →
    (monthKeys
      (cs.foldl
        (fun counts c =>
          if c.date_added > one_year_ago_epoch then
            bumpMonth counts (monthOf c.date_added)
          else counts) acc)).Nodup := by
  induction cs with
  | nil => intro acc h; simpa using h
  | cons c rest ih =>
    intro acc h
    by_cases hin : c.date_added > one_year_ago_epoch
    · simp only [List.foldl_cons, if_pos hin]
      exact ih (bumpMonth acc (monthOf c.date_added))
        (nodup_monthKeys_bumpMonth acc (monthOf c.date_added) h)
    · simp only [List.foldl_cons, if_neg hin]
      exact ih acc h

/-- Claim C3: with the cutoff taken as run time minus 365 days, the growth
series counts, per year-month bucket, exactly the devices installed
strictly after the cutoff in that calendar month (fleet-wide); the bucket
counts sum to the number of devices installed within the trailing year;
every bucket present has a positive count (months with zero installs are
absent, not zero-filled); and bucket keys are unique, so each included
device lands in exactly one bucket. -/
theorem growth_series_buckets (one_year_ago_epoch : Int) (cs : List Camera) :
    (∀ m, lookupCount (create_camera_growth_series one_year_ago_epoch cs) m =
      cs.countP (fun c =>
        decide (one_year_ago_epoch < c.date_added) && (monthOf c.date_added == m)))
    ∧ sumCounts (create_camera_growth_series one_year_ago_epoch cs) =
        cs.countP (fun c => decide (one_year_ago_epoch < c.date_added))
    ∧ (∀ p ∈ create_camera_growth_series one_year_ago_epoch cs, 0 < p.2)
    ∧ (monthKeys (create_camera_growth_series one_year_ago_epoch cs)).Nodup := by
  refine ⟨?_, ?_, ?_, ?_⟩
  · intro m
    simpa [lookupCount] using lookupCount_growth_foldl one_year_ago_epoch cs [] m
  · simpa [sumCounts] using sumCounts_growth_foldl one_year_ago_epoch cs []
  · exact pos_counts_growth_foldl one_year_ago_epoch cs [] (by simp)
  · exact nodup_monthKeys_growth_foldl one_year_ago_epoch cs [] (by simp [monthKeys])

/-- A camera installed long before any recent cutoff. -/
def camOld : Camera :=
  { name := "Cam Old", model := "CD31", serial := "SN-OLD", site := "HQ",
    status := "Live", date_added := 1000000000 }

/-- Witness for C3: with cutoff 1690000000, the list `[camA, camOld]`
(installed at 1700000000 and 1000000000) yields a series whose counts sum
to 1 — only the device inside the trailing year is counted — and whose
single bucket is the installation month of `camA` with count 1. -/
theorem growth_series_buckets_witness :
    sumCounts (create_camera_growth_series 1690000000 [camA, camOld]) = 1
    ∧ lookupCount (create_camera_growth_series 1690000000 [camA, camOld])
        (monthOf 1700000000) = 1 := by
  have h := growth_series_buckets 1690000000 [camA, camOld]
  constructor
  · rw [h.2.1]; decide
  · rw [h.1 (monthOf 1700000000)]; decide

/-- Claim C9: the growth-window boundary is strict — a device whose
installation epoch equals the cutoff exactly is excluded (appending it
leaves the series unchanged), while a device installed strictly after the
cutoff increments its own month's bucket by one. -/
theorem growth_boundary_strict (one_year_ago_epoch : Int) (c c2 : Camera)
    (cs : List Camera) (h : c.date_added = one_year_ago_epoch)
    (h2 : one_year_ago_epoch < c2.date_added) :
    create_camera_growth_series one_year_ago_epoch (cs ++ [c]) =
      create_camera_growth_series one_year_ago_epoch cs
    ∧ lookupCount (create_camera_growth_series one_year_ago_epoch (cs ++ [c2]))
        (monthOf c2.date_added) =
      lookupCount (create_camera_growth_series one_year_ago_epoch cs)
        (monthOf c2.date_added) + 1 := by
  constructor
  · rw [create_camera_growth_series, List.foldl_append]
    have hout : ¬ (c.date_added > one_year_ago_epoch) := by
      rw [h]
      exact lt_irrefl _
    simp [hout, create_camera_growth_series]
  · rw [create_camera_growth_series, List.foldl_append]
    simp only [List.foldl_cons, List.foldl_nil, if_pos h2]
    rw [lookupCount_bumpMonth]
    simp [create_camera_growth_series]

/-- Witness for C9: with cutoff 1690000000, appending a camera installed
exactly at the cutoff leaves the series of `[camA]` unchanged, while a
camera installed one second later gets its month bucket incremented. -/
theorem growth_boundary_strict_witness :
    create_camera_growth_series 1690000000
        [camA, { camOld with date_added := 1690000000 }] =
      create_camera_growth_series 1690000000 [camA]
    ∧ lookupCount
        (create_camera_growth_series 1690000000
          [camA, { camOld with date_added := 1690000001 }])
        (monthOf 1690000001) =
      lookupCount (create_camera_growth_series 1690000000 [camA])
        (monthOf 1690000001) + 1 := by
  have h := growth_boundary_strict 1690000000
    { camOld with date_added := 1690000000 }
    { camOld with date_added := 1690000001 }
    [camA] rfl (by decide)
  exact h

/-!  ## Report builder (`create_pdf_report`, source lines 84-159)

The flowable list passed to `doc.build` is embedded as a list of
`Element`s; the per-page `add_header` callback becomes the `pageHeader`
field.  The `count += 1` statement inside the device-row loop reads a
local variable that is never assigned anywhere in the function, so Python
raises `UnboundLocalError` there; the accumulator is threaded as an
`Option Nat` that starts as `none` and faults on first increment. -/

inductive Element where
  | spacer (w h : Nat)
  | image (path : String) (w h : Nat)
  | titleTable (text : String) (fontSize bottomPad : Nat)
  | deviceTable (data : List (List String))
deriving Repr, DecidableEq

/-- The final document: the right-aligned per-page header plus the
flowable list. -/
structure PdfDoc where
  pageHeader : String
  elements : List Element
deriving Repr, DecidableEq

/-- The fault raised by `count += 1` with `count` never assigned. -/
def uninitCountError : String :=
  "UnboundLocalError: local variable count referenced before assignment"

/-- Device-table column headers (source line 129). -/
def headerRow : List String := ["Name", "Model", "Serial", "Date Added"]

/-- The row loop of source lines 130-138: append a row for the camera,
then execute `count += 1`, which faults when `count` is unbound. -/
def buildRows : List Camera → Option Nat → Except String (List (List String) × Option Nat)
  | [], count => .ok ([], count)
  | c :: rest, count =>
    match count with
    | none => .error uninitCountError
    | some n =>
      match buildRows rest (some (n + 1)) with
      | .error e => .error e
      | .ok (rows, count2) =>
        .ok ([c.name, c.model, c.serial, dateOf c.date_added] :: rows, count2)

/-- One per-site section (source lines 112-157): site title table
(font 12, padding 8), spacer, status chart image, spacer, then the device
table and a trailing spacer. -/
def buildSiteSection (els : List Element) (count : Option Nat) (site : String)
    (cameras : List Camera) : Except String (List Element × Option Nat) :=
  let els1 := els ++
    [Element.titleTable ("Site: " ++ site) 12 8, Element.spacer 1 12,
     Element.image (site ++ "_status_bar.png") 250 125, Element.spacer 1 12]
  match buildRows cameras count with
  | .error e => .error e
  | .ok (rows, count2) =>
    .ok (els1 ++ [Element.deviceTable (headerRow :: rows), Element.spacer 1 24], count2)

/-- The `for site, cameras in sorted_sites` loop. -/
def buildSections : List (String × List Camera) → List Element → Option Nat →
    Except String (List Element × Option Nat)
  | [], els, count => .ok (els, count)
  | (site, cams) :: rest, els, count =>
    match buildSiteSection els count site cams with
    | .error e => .error e
    | .ok (els2, count2) => buildSections rest els2 count2

/-- Cover content (source lines 92-107): spacer, logo image, spacer, the
report title table (font 14, padding 12), spacer.  The `report_date`
string computed on line 100 is never appended in the source. -/
def coverElements : List Element :=
  [Element.spacer 1 12, Element.image "verkada_logo.png" 100 50, Element.spacer 1 12,
   Element.titleTable "Verkada Install Site Report" 14 12, Element.spacer 1 12]

/-- `sorted(sites.items())`: Python's stable sort comparing tuples, which
on distinct site labels orders by label; embedded as a stable insertion
sort by the label component. -/
def bySiteLabel (a b : String × List Camera) : Prop := a.1 ≤ b.1

instance : DecidableRel bySiteLabel :=
  fun a b => inferInstanceAs (Decidable (a.1 ≤ b.1))

instance : IsTotal (String × List Camera) bySiteLabel :=
  ⟨fun a b => le_total a.1 b.1⟩

instance : IsTrans (String × List Camera) bySiteLabel :=
  ⟨fun _ _ _ h1 h2 => le_trans h1 h2⟩

def sorted_sites (sites : List (String × List Camera)) :
    List (String × List Camera) :=
  List.insertionSort bySiteLabel sites

/-- `create_pdf_report`: cover content, then one section per site in
alphabetical order; `today` is the `datetime.now().strftime('%Y-%m-%d')`
date used by the page-header callback. -/
def create_pdf_report (today : String) (sites : List (String × List Camera)) :
    Except String PdfDoc :=
  match buildSections (sorted_sites sites) coverElements none with
  | .error e => .error e
  | .ok (els, _) => .ok { pageHeader := "Report Date: " ++ today, elements := els }

theorem buildSections_error_of_nonempty :
    ∀ (l : List (String × List Camera)) (els : List Element),
    (∃ p ∈ l, p.2 ≠ []) → buildSections l els none = .error uninitCountError := by
  intro l
  induction l with
  | nil =>
    rintro els ⟨p, hp, _⟩
    cases hp
  | cons hd tl ih =>
    rintro els ⟨p, hp, hne⟩
    obtain ⟨site, cams⟩ := hd
    rcases List.mem_cons.mp hp with heq | htl
    · subst heq
      match cams, hne with
      | c :: rest, _ => rfl
    · match cams with
      | [] => exact ih _ ⟨p, htl, hne⟩
      | c :: rest => rfl

/-- Claim C2: `create_pdf_report` references the row accumulator `count`
without prior initialization, so for every sites mapping containing at
least one site with at least one device, building the report raises an
uninitialized-variable fault at the first device row and no document is
produced. -/
theorem create_pdf_report_uninit_count_fault (today : String)
    (sites : List (String × List Camera)) (h : ∃ p ∈ sites, p.2 ≠ []) :
    create_pdf_report today sites = .error uninitCountError := by
  obtain ⟨p, hp, hne⟩ := h
  have hperm : (sorted_sites sites).Perm sites := List.perm_insertionSort _ _
  have hb := buildSections_error_of_nonempty (sorted_sites sites) coverElements
    ⟨p, hperm.mem_iff.mpr hp, hne⟩
  simp [create_pdf_report, hb]

/-- Witness for C2: a single site with a single device makes the report
builder fault. -/
theorem create_pdf_report_uninit_count_fault_witness :
    create_pdf_report "2025-03-01" [("Annex", [camB])] = .error uninitCountError :=
  create_pdf_report_uninit_count_fault "2025-03-01" [("Annex", [camB])]
    ⟨("Annex", [camB]), by simp, by simp⟩

/-- Claim C10: with an empty sites mapping the per-site loop body never
runs, the uninitialized `count` is never referenced, and the report is
produced containing exactly the cover content with the date page header. -/
theorem create_pdf_report_empty_sites (today : String) :
    create_pdf_report today [] =
      .ok { pageHeader := "Report Date: " ++ today, elements := coverElements } := rfl

/-- The texts of the site-title tables (font 12, padding 8) in a flowable
list, in order; the cover title uses font 14 so it is not included. -/
def siteTitleList (els : List Element) : List String :=
  els.filterMap fun e =>
    match e with
    | Element.titleTable t 12 8 => some t
    | _ => none

theorem siteTitleList_append (a b : List Element) :
    siteTitleList (a ++ b) = siteTitleList a ++ siteTitleList b :=
  List.filterMap_append a b _

theorem buildSections_elements :
    ∀ (l : List (String × List Camera)) (els : List Element) (count : Option Nat)
      (els2 : List Element) (count2 : Option Nat),
    buildSections l els count = .ok (els2, count2) →
    ∃ t, els2 = els ++ t ∧
      siteTitleList t = l.map (fun p => "Site: " ++ p.1) := by
  intro l
  induction l with
  | nil =>
    intro els count els2 count2 h
    refine ⟨[], ?_, rfl⟩
    simp only [buildSections, Except.ok.injEq, Prod.mk.injEq] at h
    simp [h.1]
  | cons hd tl ih =>
    intro els count els2 count2 h
    obtain ⟨site, cams⟩ := hd
    cases hrows : buildRows cams count with
    | error e =>
      have : buildSections ((site, cams) :: tl) els count = .error e := by
        simp only [buildSections, buildSiteSection, hrows]
      rw [this] at h
      cases h
    | ok pr =>
      obtain ⟨rows, countr⟩ := pr
      have hstep : buildSections ((site, cams) :: tl) els count =
          buildSections tl
            (els ++
              [Element.titleTable ("Site: " ++ site) 12 8, Element.spacer 1 12,
               Element.image (site ++ "_status_bar.png") 250 125, Element.spacer 1 12] ++
              [Element.deviceTable (headerRow :: rows), Element.spacer 1 24]) countr := by
        simp only [buildSections, buildSiteSection, hrows]
      rw [hstep] at h
      obtain ⟨t, ht, htitles⟩ := ih _ countr els2 count2 h
      refine ⟨([Element.titleTable ("Site: " ++ site) 12 8, Element.spacer 1 12,
        Element.image (site ++ "_status_bar.png") 250 125, Element.spacer 1 12] ++
        [Element.deviceTable (headerRow :: rows), Element.spacer 1 24]) ++ t, ?_, ?_⟩
      · rw [ht]
        simp [List.append_assoc]
      · rw [siteTitleList_append, siteTitleList_append, htitles]
        simp [siteTitleList]

/-- Claim C6: the report's per-site sections are ordered alphabetically by
site label — the visiting order `sorted_sites` is sorted and a permutation
of the input, it is independent of the input/insertion order of the
mapping (for distinct labels), and any successfully built document lists
its site sections, after the cover content, in exactly that order. -/
theorem report_sections_sorted_alphabetically (sites : List (String × List Camera)) :
    List.Sorted bySiteLabel (sorted_sites sites)
    ∧ (sorted_sites sites).Perm sites
    ∧ (∀ sites2, sites.Perm sites2 → (sites.map Prod.fst).Nodup →
        sorted_sites sites = sorted_sites sites2)
    ∧ (∀ today doc, create_pdf_report today sites = .ok doc →
        ∃ rest, doc.elements = coverElements ++ rest ∧
          siteTitleList rest = (sorted_sites sites).map (fun p => "Site: " ++ p.1)) := by
  refine ⟨List.sorted_insertionSort bySiteLabel sites,
    List.perm_insertionSort bySiteLabel sites, ?_, ?_⟩
  · intro sites2 hperm hnd
    haveI : IsAntisymm (String × List Camera) (fun a b => a.1 < b.1) :=
      ⟨fun a b h1 h2 => absurd h1 (lt_asymm h2)⟩
    have hp1 : (sorted_sites sites).Perm sites := List.perm_insertionSort _ _
    have hp2 : (sorted_sites sites2).Perm sites2 := List.perm_insertionSort _ _
    have hp12 : (sorted_sites sites).Perm (sorted_sites sites2) :=
      hp1.trans (hperm.trans hp2.symm)
    have hstrict : ∀ l : List (String × List Camera),
        List.Sorted bySiteLabel l → (l.map Prod.fst).Nodup →
        List.Pairwise (fun a b : String × List Camera => a.1 < b.1) l := by
      intro l hs hn
      have hne : List.Pairwise (fun a b : String × List Camera => a.1 ≠ b.1) l :=
        List.pairwise_map.mp hn
      exact (hs.and hne).imp fun h => lt_of_le_of_ne h.1 h.2
    have hnd1 : ((sorted_sites sites).map Prod.fst).Nodup :=
      ((hp1.map Prod.fst).nodup_iff).mpr hnd
    have hnd2 : ((sorted_sites sites2).map Prod.fst).Nodup :=
      ((hp2.map Prod.fst).nodup_iff).mpr
        (((hperm.map Prod.fst).nodup_iff).mp hnd)
    exact List.eq_of_perm_of_sorted hp12
      (hstrict _ (List.sorted_insertionSort _ _) hnd1)
      (hstrict _ (List.sorted_insertionSort _ _) hnd2)
  · intro today doc hok
    cases hb : buildSections (sorted_sites sites) coverElements none with
    | error e =>
      rw [show create_pdf_report today sites = .error e by
        simp [create_pdf_report, hb]] at hok
      cases hok
    | ok pr =>
      obtain ⟨els, cnt⟩ := pr
      have hdoc : doc = { pageHeader := "Report Date: " ++ today, elements := els } := by
        rw [show create_pdf_report today sites =
          .ok { pageHeader := "Report Date: " ++ today, elements := els } by
            simp [create_pdf_report, hb]] at hok
        cases hok
        rfl
      obtain ⟨t, ht, htitles⟩ := buildSections_elements _ _ _ _ _ hb
      exact ⟨t, by rw [hdoc, ht], htitles⟩

/-- Witness for C6: for the site labels West, Arcade, Mall, the visiting
order is independent of input order (shown by applying the theorem to two
permuted inputs) and evaluates to Arcade, Mall, West. -/
theorem report_sections_sorted_alphabetically_witness :
    sorted_sites [("West", []), ("Arcade", []), ("Mall", [])] =
      sorted_sites [("Mall", []), ("Arcade", []), ("West", [])]
    ∧ sorted_sites [("West", []), ("Arcade", []), ("Mall", [])] =
      [("Arcade", []), ("Mall", []), ("West", [])] := by
  have hle1 : ("Arcade" : String) ≤ "Mall" := by
    rw [String.le_iff_toList_le]; decide
  have hle2 : ¬ ("West" : String) ≤ "Arcade" := by
    rw [String.le_iff_toList_le]; decide
  have hle3 : ¬ ("West" : String) ≤ "Mall" := by
    rw [String.le_iff_toList_le]; decide
  constructor
  · exact (report_sections_sorted_alphabetically
      [("West", []), ("Arcade", []), ("Mall", [])]).2.2.1
      [("Mall", []), ("Arcade", []), ("West", [])] (by decide) (by decide)
  · simp [sorted_sites, List.insertionSort, List.orderedInsert, bySiteLabel,
      hle1, hle2, hle3]

/-- A camera for the C8 failing input. -/
def camLobby : Camera :=
  { name := "Front Door", model := "CD52", serial := "LOB-001", site := "Lobby",
    status := "Live", date_added := 1705000000 }

/-- Claim C8 (code bug): the spec describes each site section's device
table as a header row [Name, Model, Serial, Date Added] followed by one
row per device, but the code faults with `UnboundLocalError` on the
`count += 1` inside the row loop for any site with at least one device,
so no such table (and no document) is ever produced for it: evaluated at
a single site with a single device. -/
theorem create_pdf_report_device_table_fault :
    create_pdf_report "2025-01-01" [("Lobby", [camLobby])] =
      .error uninitCountError := rfl

/-!  ## API key check (source lines 13-15) and orchestrator

`API_KEY = os.getenv("VERKADA_API_KEY")` followed by `if not API_KEY:
raise ValueError(...)` at module load, before any request is issued.
`os.getenv` yields `none` when unset; `not` treats the empty string as
falsy. -/

/-- The `ValueError` message of source line 15. -/
def apiKeyErrorMsg : String :=
  "Command REST API key not found. Please set the VERKADA_API_KEY environment variable."

/-- The module-load credential check. -/
def check_api_key : Option String → Except String String
  | none => .error apiKeyErrorMsg
  | some s => if s = "" then .error apiKeyErrorMsg else .ok s

/-- Page tokens requested over a whole run: none when the credential check
fails at load time, otherwise the tokens issued by `fetch_camera_data`
(all `fuel` tokens when the fuel runs out mid-pagination). -/
def requests_made (key : Option String) (api : Nat → List Camera) (fuel : Nat) :
    List Nat :=
  match check_api_key key with
  | .error _ => []
  | .ok _ =>
    match fetch_camera_data api fuel with
    | some (toks, _) => toks
    | none => List.range' 1 fuel

/-- Claim C7: an unset or empty VERKADA_API_KEY credential fails the
configuration check before any network request — zero requests are made —
while any non-empty credential passes the check without a configuration
error. -/
theorem api_key_checked_before_requests (key : Option String)
    (api : Nat → List Camera) (fuel : Nat) :
    ((key = none ∨ key = some "") →
      check_api_key key = .error apiKeyErrorMsg ∧ requests_made key api fuel = [])
    ∧ (∀ s, key = some s → s ≠ "" → check_api_key key = .ok s) := by
  constructor
  · rintro (h | h) <;> subst h <;> exact ⟨rfl, rfl⟩
  · intro s hk hs
    subst hk
    simp [check_api_key, hs]

/-- Witness for C7: with the credential unset no request is issued even
against an API with available pages, and a non-empty credential passes
the check. -/
theorem api_key_checked_before_requests_witness :
    (check_api_key none = .error apiKeyErrorMsg
      ∧ requests_made none apiTwoPages 5 = [])
    ∧ check_api_key (some "secret-key") = .ok "secret-key" := by
  constructor
  · exact (api_key_checked_before_requests none apiTwoPages 5).1 (Or.inl rfl)
  · exact (api_key_checked_before_requests (some "secret-key") apiTwoPages 5).2
      "secret-key" rfl (by decide)

end Verkada
